import Mathlib

/-
Verification of the Baynance streaming market-data ingestion core.

The Python source (src/exchange.py, src/sqlite_db.py, src/tokens.py,
src/enums.py, src/utils.py) is shallowly embedded below.  Prices and
timestamps are modelled as rationals (Python floats at the claim inputs
are exact or far from any decision boundary); Python exceptions are
modelled with `Except`; the SQLite tables are modelled as append-only
lists in insertion (rowid) order; Python dicts are modelled as
association lists in insertion order.
-/

deriving instance DecidableEq for Except

/-- One ticker frame as delivered to `Binance.ticker_handler`, after the
numeric fields have been parsed (`float(msg["c"])` etc.).  Field names
follow the wire keys used in `exchange.py`: s = symbol, c = close,
o = open, h = high, l = low, v = volume, q = quote asset volume,
E = event time in milliseconds. -/
structure Frame where
  s : String
  c : ℚ
  o : ℚ
  h : ℚ
  l : ℚ
  v : ℚ
  q : ℚ
  E : ℚ
deriving Repr, DecidableEq

/-- `TokenFutures.price_info` from src/tokens.py: every field is optional,
all `None` until the first saved tick.  `open_` stands for the dict key
"open" (a Lean keyword); `timestamp` is in seconds
(`datetime.fromtimestamp(msg["E"] / 1000)` modelled as E / 1000). -/
structure PriceInfo where
  open_ : Option ℚ
  close : Option ℚ
  high : Option ℚ
  low : Option ℚ
  volume : Option ℚ
  quote_asset_volume : Option ℚ
  timestamp : Option ℚ
deriving Repr, DecidableEq

/-- The all-`None` `price_info` built by `TokenFutures.__init__`. -/
def initPriceInfo : PriceInfo :=
  ⟨none, none, none, none, none, none, none⟩

/-- One row of the "tickers" table (`SQLiteDB.Ticker`); the surrogate id
is the position in the list, timestamps are seconds. -/
structure TickerRow where
  timestamp : ℚ
  symbol : String
  close : ℚ
  open_ : ℚ
  high : ℚ
  low : ℚ
  volume : ℚ
  quote_asset_volume : ℚ
deriving Repr, DecidableEq

/-- One row of the "logs" table (`SQLiteDB.Log`). -/
structure LogRow where
  level : String
  msg : String
  datetime : ℚ
deriving Repr, DecidableEq

/-- The row built by `SQLiteDB.insert_ticker` from a frame:
`datetime.fromtimestamp(float(data["E"]) / 1000)` and the parsed floats. -/
def rowOf (f : Frame) : TickerRow :=
  ⟨f.E / 1000, f.s, f.c, f.o, f.h, f.l, f.v, f.q⟩

/-- The `price_info` dict written by `Binance.save_ticker`. -/
def snapshotOf (f : Frame) : PriceInfo :=
  ⟨some f.o, some f.c, some f.h, some f.l, some f.v, some f.q, some (f.E / 1000)⟩

/-- Dict lookup `self.tokens[symbol]` on the registry modelled as an
association list in insertion order. -/
def lookupToken (tokens : List (String × PriceInfo)) (s : String) : Option PriceInfo :=
  match tokens with
  | [] => none
  | (k, pi) :: rest => if k = s then some pi else lookupToken rest s

/-- Dict assignment `self.tokens[symbol] = ...`: replace in place if the
key exists, else append (Python dicts preserve insertion order). -/
def setToken (tokens : List (String × PriceInfo)) (s : String) (pi : PriceInfo) :
    List (String × PriceInfo) :=
  match tokens with
  | [] => [(s, pi)]
  | (k, v) :: rest => if k = s then (s, pi) :: rest else (k, v) :: setToken rest s pi

/-- The mutable state touched by the ticker path of `Binance`:
the `tokens` registry and the "tickers" table. -/
structure BinanceState where
  tokens : List (String × PriceInfo)
  tickers : List TickerRow
deriving Repr, DecidableEq

/-- The empty state: `self.tokens = {}` and an empty "tickers" table. -/
def initBinanceState : BinanceState :=
  ⟨[], []⟩

/-- Python's built-in `abs` on numbers, written executably so that the
kernel can evaluate it (Mathlib's `|·|` on ℚ goes through lattice
instances that do not reduce). -/
def pyAbs (x : ℚ) : ℚ :=
  if x < 0 then -x else x

/-- The change-detection test inlined in `Binance.ticker_handler`:
`last_close_price is None or abs(close_price / last_close_price - 1) > 0.001`.
Python `or` short-circuits, so `None` never reaches the division;
float division by zero raises `ZeroDivisionError`, modelled as
`Except.error ()`. -/
def isSignificant (prev : Option ℚ) (c : ℚ) : Except Unit Bool :=
  match prev with
  | none => Except.ok true
  | some p =>
      if p = 0 then Except.error ()
      else Except.ok (decide (pyAbs (c / p - 1) > 1 / 1000))

/-- `Binance.ticker_handler` (the non-futures path; the futures path only
unwraps `msg["data"]` first): create a fresh all-`None` registry entry for
an unseen symbol, read the last close, and when the change is significant
run `insert_ticker` then `save_ticker`.  A `ZeroDivisionError` from the
significance test propagates. -/
def ticker_handler (st : BinanceState) (f : Frame) : Except Unit BinanceState :=
  let tokens1 :=
    match lookupToken st.tokens f.s with
    | some _ => st.tokens
    | none => setToken st.tokens f.s initPriceInfo
  let prev : Option ℚ :=
    match lookupToken tokens1 f.s with
    | some pi => pi.close
    | none => none
  match isSignificant prev f.c with
  | Except.error e => Except.error e
  | Except.ok true =>
      Except.ok { tokens := setToken tokens1 f.s (snapshotOf f),
                  tickers := st.tickers ++ [rowOf f] }
  | Except.ok false =>
      Except.ok { st with tokens := tokens1 }

/-- Run `ticker_handler` over a sequence of frames, stopping at the first
uncaught exception. -/
def processFrames (st : BinanceState) (fs : List Frame) : Except Unit BinanceState :=
  match fs with
  | [] => Except.ok st
  | f :: rest =>
      match ticker_handler st f with
      | Except.error e => Except.error e
      | Except.ok st2 => processFrames st2 rest

/-- The persistent state owned by `SQLiteDB`: the two append-only tables,
each list in insertion (rowid) order. -/
structure DBState where
  tickers : List TickerRow
  logs : List LogRow
deriving Repr, DecidableEq

/-- `SQLiteDB.session` (src/sqlite_db.py): run the body; on success commit
its pending changes; on `IntegrityError` roll the session back (the
pending changes are discarded), log the error at ERROR level via
`self.log`, and return normally — the exception is swallowed, never
re-raised, and the body is not retried.  The body is modelled as a
function from the current state to either a new state (its pending
writes) or an integrity-error message; `now` is `datetime.now()` in
seconds. -/
def session (db : DBState) (body : DBState → Except String DBState) (now : ℚ) : DBState :=
  match body db with
  | Except.ok db2 => db2
  | Except.error m => { db with logs := db.logs ++ [⟨"ERROR", m, now⟩] }

/-- `SQLiteDB.insert_ticker` under an external integrity outcome: the
SQLite engine either accepts the row (`outcome = none`) or raises an
`IntegrityError` with message `m` (`outcome = some m`), which `session`
handles. -/
def insert_ticker (db : DBState) (f : Frame) (outcome : Option String) (now : ℚ) : DBState :=
  session db
    (fun d =>
      match outcome with
      | none => Except.ok { d with tickers := d.tickers ++ [rowOf f] }
      | some m => Except.error m)
    now

/-- `SQLiteDB.query_ticker`: `SELECT ... WHERE symbol = ? AND timestamp >= ?
AND timestamp <= ?` with no ORDER BY; SQLite scans the table and returns
the matching rows in rowid (insertion) order. -/
def query_ticker (tickers : List TickerRow) (symbol : String) (startT endT : ℚ) :
    List TickerRow :=
  tickers.filter
    (fun r => r.symbol = symbol ∧ startT ≤ r.timestamp ∧ r.timestamp ≤ endT)

/-- The `Table` enum from src/enums.py. -/
inductive Table where
  | LOG
  | TICKER
  | TRADE
  | ORDER
deriving Repr, DecidableEq

/-- `Table.value`: the table-name string of each enum member. -/
def Table.value : Table → String
  | Table.LOG => "logs"
  | Table.TICKER => "tickers"
  | Table.TRADE => "trades"
  | Table.ORDER => "orders"

/-- The argument type of `SQLiteDB.create_table`, per its annotation
`Table | str`. -/
inductive TableArg where
  | enum (t : Table)
  | str (s : String)
deriving Repr, DecidableEq

/-- The table names registered in `Base.metadata.tables`: exactly the
`__tablename__`s of the two declared ORM classes `SQLiteDB.Log` and
`SQLiteDB.Ticker`. -/
def metadataTables : List String :=
  [Table.LOG.value, Table.TICKER.value]

/-- The name-resolution prelude of `SQLiteDB.create_table`:
`table.value` for an enum member, the string itself for a string. -/
def resolveName : TableArg → String
  | TableArg.enum t => t.value
  | TableArg.str s => s

/-- `SQLiteDB.create_table`: if the resolved name is in
`Base.metadata.tables`, create it with `checkfirst=True` (a no-op when the
table already exists in the database); otherwise raise `ValueError`
without touching the database.  `created` is the set of tables existing
in the SQLite file, in creation order. -/
def create_table (created : List String) (arg : TableArg) : Except String (List String) :=
  let n := resolveName arg
  if n ∈ metadataTables then
    Except.ok (if n ∈ created then created else created ++ [n])
  else
    Except.error ("No table found with name " ++ n)

/-- `ThreadedWebsocketManager`, reduced to the one bit `start_websocket_manager`
depends on: `threading.Thread.start` raises `RuntimeError` when the thread
has already been started, and otherwise marks it started. -/
structure WSManager where
  started : Bool
deriving Repr, DecidableEq

/-- `ThreadedWebsocketManager.start`: raises `RuntimeError` if already
started, else starts the thread.  The manager is mutated only on the
success path. -/
def twmStart (m : WSManager) : Except Unit WSManager :=
  if m.started then Except.error () else Except.ok ⟨true⟩

/-- `Binance.start_websocket_manager`: try `start()`; a `RuntimeError` is
caught and logged at WARNING; then "Websocket manager started" is logged
at INFO unconditionally.  Returns the manager and the logged
(level, message) records. -/
def start_websocket_manager (m : WSManager) (logs : List (String × String)) :
    WSManager × List (String × String) :=
  let step :=
    match twmStart m with
    | Except.ok m2 => (m2, logs)
    | Except.error _ => (m, logs ++ [("WARNING", "Websocket manager already started")])
  (step.1, step.2 ++ [("INFO", "Websocket manager started")])

/-- Modelled from the spec: a `Subscription` of §3 — one active topic
registration on a StreamConnection, `{topic name, stream identifier}`
(the handler reference is identified by the stream id here).  The
reconnect/resubscribe machinery itself is implemented by the third-party
`ThreadedWebsocketManager` and has no source under src/. -/
structure Subscription where
  topic : String
  streamId : Nat
deriving Repr, DecidableEq

/-- Modelled from the spec (§4.1): the phase of a StreamConnection —
running normally, transport dropped, or reconnected and re-issuing the
previously active subscriptions (`pending` is the not-yet-re-issued
suffix, in original registration order). -/
inductive ConnPhase where
  | running
  | dropped
  | resubscribing (pending : List Subscription)
deriving Repr, DecidableEq

/-- Modelled from the spec: a StreamConnection — the active subscriptions
in registration order, and the current phase. -/
structure StreamConn where
  subs : List Subscription
  phase : ConnPhase
deriving Repr, DecidableEq

/-- Modelled from the spec (§4.1): transport-level events observable at
the StreamConnection boundary. -/
inductive ConnEvent where
  | drop
  | reconnect
  | resubscribeNext
  | frame (topic : String)
deriving Repr, DecidableEq

/-- Modelled from the spec: externally visible actions of a
StreamConnection — a subscription being re-issued against the new
transport session, or a frame being dispatched to its handler. -/
inductive ConnAct where
  | reissue (sub : Subscription)
  | dispatch (topic : String)
deriving Repr, DecidableEq

/-- Modelled from the spec (§4.1 failure semantics): one step of the
StreamConnection.  A drop suspends the connection; on reconnect every
previously active subscription is queued for re-issue in original
registration order; re-issues happen one at a time and the connection
returns to `running` only once all are done; a frame is dispatched to a
matching handler only in the `running` phase — never while resubscription
is in progress. -/
def connStep (c : StreamConn) (e : ConnEvent) : StreamConn × List ConnAct :=
  match e with
  | ConnEvent.drop => ({ c with phase := ConnPhase.dropped }, [])
  | ConnEvent.reconnect =>
      match c.phase with
      | ConnPhase.dropped =>
          if c.subs.isEmpty then ({ c with phase := ConnPhase.running }, [])
          else ({ c with phase := ConnPhase.resubscribing c.subs }, [])
      | _ => (c, [])
  | ConnEvent.resubscribeNext =>
      match c.phase with
      | ConnPhase.resubscribing (s :: rest) =>
          if rest.isEmpty then
            ({ c with phase := ConnPhase.running }, [ConnAct.reissue s])
          else
            ({ c with phase := ConnPhase.resubscribing rest }, [ConnAct.reissue s])
      | ConnPhase.resubscribing [] => ({ c with phase := ConnPhase.running }, [])
      | _ => (c, [])
  | ConnEvent.frame t =>
      match c.phase with
      | ConnPhase.running =>
          (c, if c.subs.any (fun s => s.topic = t) then [ConnAct.dispatch t] else [])
      | _ => (c, [])

/-- Modelled from the spec: run a StreamConnection over a sequence of
events, collecting the emitted actions in order. -/
def connRun (c : StreamConn) (es : List ConnEvent) : StreamConn × List ConnAct :=
  match es with
  | [] => (c, [])
  | e :: rest =>
      let step := connStep c e
      let next := connRun step.1 rest
      (next.1, step.2 ++ next.2)

/-- The registry entry for `s`, or the fresh all-`None` entry that
`ticker_handler` would create for an unseen symbol. -/
def tokenOrInit (st : BinanceState) (s : String) : PriceInfo :=
  match lookupToken st.tokens s with
  | some pi => pi
  | none => initPriceInfo

/-- The snapshot left for one symbol by a sequence of its frames: each
frame that passes the significance test replaces the snapshot, the rest
leave it untouched; a `ZeroDivisionError` propagates. -/
def lastSnapshot (cur : PriceInfo) (fs : List Frame) : Except Unit PriceInfo :=
  match fs with
  | [] => Except.ok cur
  | f :: rest =>
      match isSignificant cur.close f.c with
      | Except.error e => Except.error e
      | Except.ok true => lastSnapshot (snapshotOf f) rest
      | Except.ok false => lastSnapshot cur rest

theorem lookupToken_setToken_self (t : List (String × PriceInfo)) (s : String)
    (pi : PriceInfo) : lookupToken (setToken t s pi) s = some pi := by
  induction t with
  | nil => simp [setToken, lookupToken]
  | cons kv rest ih =>
      by_cases h : kv.1 = s
      · simp [setToken, lookupToken, h]
      · simpa [setToken, lookupToken, h] using ih

theorem setToken_setToken (t : List (String × PriceInfo)) (s : String)
    (a b : PriceInfo) : setToken (setToken t s a) s b = setToken t s b := by
  induction t with
  | nil => simp [setToken]
  | cons kv rest ih =>
      by_cases h : kv.1 = s
      · simp [setToken, h]
      · simp [setToken, h, ih]

theorem lastSnapshot_cases (fs : List Frame) : ∀ (cur pf : PriceInfo),
    lastSnapshot cur fs = Except.ok pf →
    pf = cur ∨ ∃ f, f ∈ fs ∧ pf = snapshotOf f := by
  induction fs with
  | nil =>
      intro cur pf h
      simp [lastSnapshot] at h
      exact Or.inl h.symm
  | cons f rest ih =>
      intro cur pf h
      simp only [lastSnapshot] at h
      cases hsig : isSignificant cur.close f.c with
      | error e => rw [hsig] at h; exact absurd h (by simp)
      | ok b =>
          rw [hsig] at h
          cases b with
          | true =>
              rcases ih (snapshotOf f) pf h with h1 | ⟨g, hg, hpf⟩
              · exact Or.inr ⟨f, by simp, h1⟩
              · exact Or.inr ⟨g, by simp [hg], hpf⟩
          | false =>
              rcases ih cur pf h with h1 | ⟨g, hg, hpf⟩
              · exact Or.inl h1
              · exact Or.inr ⟨g, by simp [hg], hpf⟩

theorem processFrames_lastSnapshot (s : String) (fs : List Frame) :
    ∀ st st' : BinanceState,
    (∀ f ∈ fs, f.s = s) → processFrames st fs = Except.ok st' →
    lastSnapshot (tokenOrInit st s) fs = Except.ok (tokenOrInit st' s) ∧
      (fs = [] ∨ lookupToken st'.tokens s = some (tokenOrInit st' s)) := by
  induction fs with
  | nil =>
      intro st st' _ hrun
      simp only [processFrames, Except.ok.injEq] at hrun
      subst hrun
      simp [lastSnapshot]
  | cons f rest ih =>
      intro st st' hall hrun
      have hfs : f.s = s := hall f (by simp)
      subst hfs
      have hrest : ∀ g ∈ rest, g.s = f.s := fun g hg => hall g (by simp [hg])
      simp only [processFrames, ticker_handler] at hrun
      cases hl : lookupToken st.tokens f.s with
      | some pi =>
          simp only [hl] at hrun
          have hcur : tokenOrInit st f.s = pi := by simp [tokenOrInit, hl]
          cases hsig : isSignificant pi.close f.c with
          | error e =>
              rw [hsig] at hrun
              exact absurd hrun (by simp)
          | ok b =>
              rw [hsig] at hrun
              cases b with
              | true =>
                  have ihh := ih ⟨setToken st.tokens f.s (snapshotOf f),
                    st.tickers ++ [rowOf f]⟩ st' hrest hrun
                  have hcur2 : tokenOrInit ⟨setToken st.tokens f.s (snapshotOf f),
                      st.tickers ++ [rowOf f]⟩ f.s = snapshotOf f := by
                    simp [tokenOrInit, lookupToken_setToken_self]
                  rw [hcur2] at ihh
                  constructor
                  · simp only [lastSnapshot, hcur, hsig]
                    exact ihh.1
                  · refine Or.inr ?_
                    rcases ihh.2 with hnil | hmem
                    · subst hnil
                      simp only [processFrames, Except.ok.injEq] at hrun
                      subst hrun
                      simp [tokenOrInit, lookupToken_setToken_self]
                    · exact hmem
              | false =>
                  have hst : { st with tokens := st.tokens } = st := rfl
                  rw [hst] at hrun
                  have ihh := ih st st' hrest hrun
                  rw [hcur] at ihh
                  constructor
                  · simp only [lastSnapshot, hcur, hsig]
                    exact ihh.1
                  · refine Or.inr ?_
                    rcases ihh.2 with hnil | hmem
                    · subst hnil
                      simp only [processFrames, Except.ok.injEq] at hrun
                      subst hrun
                      simp [tokenOrInit, hl]
                    · exact hmem
      | none =>
          simp only [hl, lookupToken_setToken_self] at hrun
          have hcur : tokenOrInit st f.s = initPriceInfo := by simp [tokenOrInit, hl]
          have hsig : isSignificant initPriceInfo.close f.c = Except.ok true := rfl
          rw [hsig] at hrun
          rw [setToken_setToken] at hrun
          have ihh := ih ⟨setToken st.tokens f.s (snapshotOf f),
            st.tickers ++ [rowOf f]⟩ st' hrest hrun
          have hcur2 : tokenOrInit ⟨setToken st.tokens f.s (snapshotOf f),
              st.tickers ++ [rowOf f]⟩ f.s = snapshotOf f := by
            simp [tokenOrInit, lookupToken_setToken_self]
          rw [hcur2] at ihh
          constructor
          · simp only [lastSnapshot, hcur, hsig]
            exact ihh.1
          · refine Or.inr ?_
            rcases ihh.2 with hnil | hmem
            · subst hnil
              simp only [processFrames, Except.ok.injEq] at hrun
              subst hrun
              simp [tokenOrInit, lookupToken_setToken_self]
            · exact hmem

/-- C1: the change-detection decision in the ticker path — a new close is
significant iff the previous close is absent (first observation) or
`abs(newClose / previousClose - 1) > 0.001`; in particular, for every
nonzero previous close `p`, `isSignificant p p` is false,
`isSignificant 100.0 100.05` is false, and `isSignificant none x` is true
for every `x`. -/
theorem C1_isSignificant_rule (p c x : ℚ) (hp : p ≠ 0) :
    isSignificant none x = Except.ok true ∧
    (isSignificant (some p) c = Except.ok true ↔ pyAbs (c / p - 1) > 1 / 1000) ∧
    isSignificant (some p) p = Except.ok false ∧
    isSignificant (some 100) ((100.05 : ℚ)) = Except.ok false := by
  refine ⟨rfl, ?_, ?_, ?_⟩
  · simp [isSignificant, hp]
  · norm_num [isSignificant, hp, div_self hp, pyAbs]
  · norm_num [isSignificant, pyAbs]

/-- Witness for C1 at `p = 100`, `c = 7`, `x = 5`. -/
theorem C1_isSignificant_rule_witness :
    (100 : ℚ) ≠ 0 ∧
    (isSignificant none 5 = Except.ok true ∧
     (isSignificant (some 100) 7 = Except.ok true ↔
        pyAbs ((7 : ℚ) / 100 - 1) > 1 / 1000) ∧
     isSignificant (some 100) 100 = Except.ok false ∧
     isSignificant (some 100) ((100.05 : ℚ)) = Except.ok false) :=
  ⟨by norm_num, C1_isSignificant_rule 100 7 5 (by norm_num)⟩

/-- C2: evaluating the significance test at a recorded close of exactly 0
does NOT return `true` without raising — the inline expression
`abs(close_price / last_close_price - 1)` performs a float division by
zero, so the code raises `ZeroDivisionError`; no WARNING is logged.  The
claim (and spec §4.3's edge case) describes the intended behaviour; the
code is a slip. -/
theorem C2_zero_prev_raises :
    isSignificant (some 0) 5 = Except.error () := by
  norm_num [isSignificant]

def cf1 : Frame :=
  ⟨"BTCUSDT", 100, 99, 101, 98, 10, 1000, 1700000000000⟩

def cf2 : Frame :=
  ⟨"BTCUSDT", 100.05, 100, 102, 97, 20, 2000, 1700000060000⟩

/-- C3 counterexample: after the two-frame sequence `[cf1, cf2]` (second
close 100.05, a 0.05% change, below threshold) the in-memory snapshot for
BTCUSDT is still the one saved from the FIRST frame, not the fields of
the last frame in the sequence. -/
theorem C3_last_frame_counterexample :
    ¬ ((processFrames initBinanceState [cf1, cf2]).map
          (fun st => lookupToken st.tokens "BTCUSDT") =
        Except.ok (some (snapshotOf cf2))) := by
  norm_num [processFrames, ticker_handler, isSignificant, pyAbs, lookupToken, setToken,
    initBinanceState, initPriceInfo, snapshotOf, rowOf, cf1, cf2, Except.map]

/-- C3 amended: for every sequence of ticker frames for a single symbol
that the handler processes without fault, the symbol's final in-memory
snapshot equals the fields of the last frame that PASSED the significance
test (frames below the threshold leave the snapshot untouched), and the
final snapshot is either the pre-existing one or taken wholesale from one
single frame of the sequence — no mixing of fields across frames. -/
theorem C3_last_applied_snapshot (st st' : BinanceState) (s : String) (fs : List Frame)
    (hall : ∀ f ∈ fs, f.s = s) (hne : fs ≠ [])
    (hrun : processFrames st fs = Except.ok st') :
    ∃ pf, lastSnapshot (tokenOrInit st s) fs = Except.ok pf ∧
      lookupToken st'.tokens s = some pf ∧
      (pf = tokenOrInit st s ∨ ∃ f, f ∈ fs ∧ pf = snapshotOf f) := by
  have h := processFrames_lastSnapshot s fs st st' hall hrun
  refine ⟨tokenOrInit st' s, h.1, ?_, ?_⟩
  · rcases h.2 with hnil | hmem
    · exact absurd hnil hne
    · exact hmem
  · exact lastSnapshot_cases fs (tokenOrInit st s) (tokenOrInit st' s) h.1

/-- Witness for C3 at the concrete two-frame run `[cf1, cf2]` from the
empty state. -/
theorem C3_last_applied_snapshot_witness :
    ∃ pf, lastSnapshot (tokenOrInit initBinanceState "BTCUSDT") [cf1, cf2] =
        Except.ok pf ∧
      lookupToken (BinanceState.mk [("BTCUSDT", snapshotOf cf1)] [rowOf cf1]).tokens
          "BTCUSDT" = some pf ∧
      (pf = tokenOrInit initBinanceState "BTCUSDT" ∨
        ∃ f, f ∈ [cf1, cf2] ∧ pf = snapshotOf f) :=
  C3_last_applied_snapshot initBinanceState
    (BinanceState.mk [("BTCUSDT", snapshotOf cf1)] [rowOf cf1]) "BTCUSDT" [cf1, cf2]
    (by intro f hf; fin_cases hf <;> rfl)
    (by simp)
    (by norm_num [processFrames, ticker_handler, isSignificant, pyAbs, lookupToken,
      setToken, initBinanceState, initPriceInfo, snapshotOf, rowOf, cf1, cf2])

def fr1 : Frame :=
  ⟨"BTCUSDT", 100, 99, 101, 98, 10, 1000, 1700000000000⟩

def fr2 : Frame :=
  { fr1 with c := 100.05, E := 1700000001000 }

def fr3 : Frame :=
  { fr1 with c := 101.50, E := 1700000002000 }

/-- C4: the end-to-end ticker scenario — the first BTCUSDT frame (close
"100.00", event time T0 = 1700000000000 ms) persists exactly one row with
symbol BTCUSDT, close 100 and timestamp T0/1000 seconds; the second frame
(close "100.05", a 0.05% change) persists no new row; the third frame
(close "101.50", a 1.5% change) persists exactly one new row. -/
theorem C4_end_to_end_scenario :
    (processFrames initBinanceState [fr1]).map BinanceState.tickers =
      Except.ok [rowOf fr1] ∧
    (processFrames initBinanceState [fr1, fr2]).map BinanceState.tickers =
      Except.ok [rowOf fr1] ∧
    (processFrames initBinanceState [fr1, fr2, fr3]).map BinanceState.tickers =
      Except.ok [rowOf fr1, rowOf fr3] ∧
    rowOf fr1 =
      ⟨(1700000000000 : ℚ) / 1000, "BTCUSDT", 100, 99, 101, 98, 10, 1000⟩ := by
  norm_num [processFrames, ticker_handler, isSignificant, pyAbs, lookupToken, setToken,
    initBinanceState, initPriceInfo, snapshotOf, rowOf, fr1, fr2, fr3, Except.map]

/-- C6: when a persistence write raises an integrity/constraint error,
the transaction is rolled back (the "tickers" table is unchanged and the
write is abandoned, not retried), exactly one ERROR-level log record is
emitted, and the error does not propagate — `insert_ticker` returns
normally (it is a total function into `DBState`), so the caller's flow
continues.  On the success path the row is simply appended. -/
theorem C6_integrity_error_contained (db : DBState) (f : Frame) (m : String) (now : ℚ) :
    insert_ticker db f (some m) now =
      { db with logs := db.logs ++ [LogRow.mk "ERROR" m now] } ∧
    (insert_ticker db f (some m) now).tickers = db.tickers ∧
    insert_ticker db f none now = { db with tickers := db.tickers ++ [rowOf f] } := by
  refine ⟨rfl, ?_, rfl⟩
  simp [insert_ticker, session]

/-- C7: calling start on an already-started streaming connection does not
raise to the caller (the function is total), reports the "already
running" condition as a WARNING, leaves the existing connection
untouched, and is idempotent: a second start leaves the manager in the
same state as the first. -/
theorem C7_start_idempotent (m : WSManager) (logs : List (String × String)) :
    (start_websocket_manager m logs).1.started = true ∧
    (m.started = true →
      (start_websocket_manager m logs).1 = m ∧
      (start_websocket_manager m logs).2 =
        logs ++ [("WARNING", "Websocket manager already started"),
                 ("INFO", "Websocket manager started")]) ∧
    (∀ logs2, (start_websocket_manager (start_websocket_manager m logs).1 logs2).1 =
      (start_websocket_manager m logs).1) := by
  cases m with
  | mk b => cases b <;> simp [start_websocket_manager, twmStart]

/-- Witness for C7 at an already-started manager. -/
theorem C7_start_idempotent_witness :
    (start_websocket_manager ⟨true⟩ []).1 = (⟨true⟩ : WSManager) ∧
    (start_websocket_manager ⟨true⟩ []).2 =
      [("WARNING", "Websocket manager already started"),
       ("INFO", "Websocket manager started")] :=
  (C7_start_idempotent ⟨true⟩ []).2.1 rfl

def qrowA : TickerRow :=
  ⟨200, "BTCUSDT", 1, 1, 1, 1, 1, 1⟩

def qrowB : TickerRow :=
  ⟨100, "BTCUSDT", 2, 2, 2, 2, 2, 2⟩

/-- C8 counterexample: two BTCUSDT rows inserted with decreasing
timestamps (200 then 100, both inside the query range) come back from
`query_ticker` in insertion order [200, 100] — NOT ordered by timestamp
ascending, since the query issues no ORDER BY. -/
theorem C8_order_counterexample :
    (query_ticker [qrowA, qrowB] "BTCUSDT" 0 300).map TickerRow.timestamp =
      [200, 100] ∧
    ¬ List.Sorted (fun a b => a ≤ b)
        ((query_ticker [qrowA, qrowB] "BTCUSDT" 0 300).map TickerRow.timestamp) := by
  constructor
  · norm_num [query_ticker, qrowA, qrowB]
  · intro h
    rw [show (query_ticker [qrowA, qrowB] "BTCUSDT" 0 300).map TickerRow.timestamp =
        [(200 : ℚ), 100] by norm_num [query_ticker, qrowA, qrowB]] at h
    rcases List.sorted_cons.mp h with ⟨hle, _⟩
    have : (200 : ℚ) ≤ 100 := hle 100 (by simp)
    norm_num at this

/-- C8 amended: `query_ticker` returns exactly the persisted rows whose
symbol matches and whose timestamp lies in [start, end] (bounds
inclusive), in insertion (rowid) order — a subsequence of the table; no
ordering by timestamp is guaranteed. -/
theorem C8_query_range_membership (tickers : List TickerRow) (symbol : String)
    (startT endT : ℚ) :
    (∀ r, r ∈ query_ticker tickers symbol startT endT ↔
        (r ∈ tickers ∧ r.symbol = symbol ∧ startT ≤ r.timestamp ∧ r.timestamp ≤ endT)) ∧
    (query_ticker tickers symbol startT endT).Sublist tickers := by
  constructor
  · intro r
    simp [query_ticker, List.mem_filter, and_assoc]
  · exact List.filter_sublist tickers

/-- C9: `create_table` succeeds exactly for arguments resolving to a name
with a mapped ORM class — "logs" and "tickers" — and is idempotent
(`checkfirst=True`: creating an existing table changes nothing); for
`Table.TRADE`, `Table.ORDER` and every unmapped string it raises
`ValueError` (and, the result being an error, the database is untouched). -/
theorem C9_create_table_domain (created : List String) (arg : TableArg) :
    metadataTables = ["logs", "tickers"] ∧
    ((∃ r, create_table created arg = Except.ok r) ↔
      resolveName arg ∈ metadataTables) ∧
    (∀ created2, create_table created arg = Except.ok created2 →
      create_table created2 arg = Except.ok created2) ∧
    (resolveName arg ∉ metadataTables →
      create_table created arg =
        Except.error ("No table found with name " ++ resolveName arg)) ∧
    create_table created (TableArg.enum Table.TRADE) =
      Except.error ("No table found with name trades") ∧
    create_table created (TableArg.enum Table.ORDER) =
      Except.error ("No table found with name orders") := by
  refine ⟨rfl, ?_, ?_, ?_, rfl, rfl⟩
  · by_cases hmem : resolveName arg ∈ metadataTables
    · simp [create_table, hmem]
    · simp [create_table, hmem]
  · intro created2 hok
    by_cases hmem : resolveName arg ∈ metadataTables
    · simp only [create_table, if_pos hmem, Except.ok.injEq] at hok
      by_cases hin : resolveName arg ∈ created
      · rw [if_pos hin] at hok
        subst hok
        simp [create_table, hmem, hin]
      · rw [if_neg hin] at hok
        subst hok
        simp [create_table, hmem]
    · simp [create_table, hmem] at hok
  · intro hmem
    simp [create_table, hmem]

/-- Witness for C9: creating "logs" in an empty database succeeds, and
creating it again is a no-op. -/
theorem C9_create_table_domain_witness :
    create_table ["logs"] (TableArg.str ("logs")) = Except.ok ["logs"] :=
  (C9_create_table_domain [] (TableArg.str ("logs"))).2.2.1 ["logs"]
    (by simp [create_table, resolveName, metadataTables, Table.value])

/-- C10: a frame whose symbol already has a recorded nonzero close and
whose new close is within the 0.1% threshold causes no database write and
leaves the state (registry snapshot included) completely unchanged;
moreover for a previously unseen symbol the handler always takes the
significant branch (the previous close is `None`), so the only registry
mutation outside that branch is the creation of the fresh all-`None`
entry, which is immediately overwritten by the frame's snapshot. -/
theorem C10_insignificant_noop (st : BinanceState) (f : Frame) (pi : PriceInfo) (p : ℚ)
    (hlk : lookupToken st.tokens f.s = some pi) (hc : pi.close = some p) (hp : p ≠ 0)
    (hsmall : pyAbs (f.c / p - 1) ≤ 1 / 1000) :
    ticker_handler st f = Except.ok st ∧
    (∀ st2 : BinanceState, lookupToken st2.tokens f.s = none →
      ticker_handler st2 f =
        Except.ok { tokens := setToken st2.tokens f.s (snapshotOf f),
                    tickers := st2.tickers ++ [rowOf f] }) := by
  constructor
  · have hsig : isSignificant (some p) f.c = Except.ok false := by
      simp only [isSignificant, if_neg hp, Except.ok.injEq]
      exact decide_eq_false (not_lt.mpr hsmall)
    simp only [ticker_handler, hlk, hc, hsig]
  · intro st2 hl2
    simp only [ticker_handler, hl2, lookupToken_setToken_self, initPriceInfo,
      isSignificant]
    rw [setToken_setToken]

/-- Witness for C10 at a concrete state holding ETHUSDT with close 100
and a frame with close 100.05 (0.05% change, below threshold). -/
theorem C10_insignificant_noop_witness :
    ticker_handler
        ⟨[("ETHUSDT", ⟨some 99, some 100, some 101, some 98, some 10, some 1000, some 1⟩)],
          []⟩
        ⟨"ETHUSDT", 100.05, 1, 1, 1, 1, 1, 2000⟩ =
      Except.ok
        ⟨[("ETHUSDT", ⟨some 99, some 100, some 101, some 98, some 10, some 1000, some 1⟩)],
          []⟩ ∧
    (∀ st2 : BinanceState,
      lookupToken st2.tokens (Frame.mk "ETHUSDT" 100.05 1 1 1 1 1 2000).s = none →
      ticker_handler st2 ⟨"ETHUSDT", 100.05, 1, 1, 1, 1, 1, 2000⟩ =
        Except.ok
          { tokens := setToken st2.tokens (Frame.mk "ETHUSDT" 100.05 1 1 1 1 1 2000).s
              (snapshotOf ⟨"ETHUSDT", 100.05, 1, 1, 1, 1, 1, 2000⟩),
            tickers := st2.tickers ++
              [rowOf ⟨"ETHUSDT", 100.05, 1, 1, 1, 1, 1, 2000⟩] }) :=
  C10_insignificant_noop
    ⟨[("ETHUSDT", ⟨some 99, some 100, some 101, some 98, some 10, some 1000, some 1⟩)], []⟩
    ⟨"ETHUSDT", 100.05, 1, 1, 1, 1, 1, 2000⟩
    ⟨some 99, some 100, some 101, some 98, some 10, some 1000, some 1⟩ 100
    (by simp [lookupToken]) rfl (by norm_num) (by norm_num [pyAbs])

theorem connStep_subs (c : StreamConn) (e : ConnEvent) :
    (connStep c e).1.subs = c.subs := by
  cases e with
  | drop => rfl
  | reconnect =>
      cases hp : c.phase with
      | dropped => by_cases hs : c.subs.isEmpty <;> simp [connStep, hp, hs]
      | running => simp [connStep, hp]
      | resubscribing l => simp [connStep, hp]
  | resubscribeNext =>
      cases hp : c.phase with
      | resubscribing l =>
          cases l with
          | nil => simp [connStep, hp]
          | cons s rest => by_cases hr : rest.isEmpty <;> simp [connStep, hp, hr]
      | running => simp [connStep, hp]
      | dropped => simp [connStep, hp]
  | frame t => cases hp : c.phase <;> simp [connStep, hp]

theorem connRun_subs (es : List ConnEvent) : ∀ c : StreamConn,
    (connRun c es).1.subs = c.subs := by
  induction es with
  | nil => intro c; rfl
  | cons e rest ih =>
      intro c
      simp only [connRun]
      rw [ih (connStep c e).1, connStep_subs]

theorem connRun_cons (c : StreamConn) (e : ConnEvent) (es : List ConnEvent) :
    connRun c (e :: es) =
      ((connRun (connStep c e).1 es).1,
        (connStep c e).2 ++ (connRun (connStep c e).1 es).2) := rfl

theorem connStep_resub_cons (subs : List Subscription) (s : Subscription)
    (rest : List Subscription) (h : rest.isEmpty = false) :
    connStep ⟨subs, ConnPhase.resubscribing (s :: rest)⟩ ConnEvent.resubscribeNext =
      (⟨subs, ConnPhase.resubscribing rest⟩, [ConnAct.reissue s]) := by
  simp [connStep, h]

theorem connStep_resub_last (subs : List Subscription) (s : Subscription) :
    connStep ⟨subs, ConnPhase.resubscribing [s]⟩ ConnEvent.resubscribeNext =
      (⟨subs, ConnPhase.running⟩, [ConnAct.reissue s]) := rfl

theorem connRun_append (es1 es2 : List ConnEvent) : ∀ c : StreamConn,
    connRun c (es1 ++ es2) =
      ((connRun (connRun c es1).1 es2).1,
        (connRun c es1).2 ++ (connRun (connRun c es1).1 es2).2) := by
  induction es1 with
  | nil => intro c; simp [connRun]
  | cons e rest ih =>
      intro c
      simp only [List.cons_append, connRun_cons, ih, List.append_assoc]

theorem connRun_resub_partial (k : Nat) : ∀ (subs l : List Subscription),
    k < l.length →
    connRun ⟨subs, ConnPhase.resubscribing l⟩
        (List.replicate k ConnEvent.resubscribeNext) =
      (⟨subs, ConnPhase.resubscribing (l.drop k)⟩,
        (l.take k).map ConnAct.reissue) := by
  induction k with
  | zero => intro subs l _; simp [connRun]
  | succ k ih =>
      intro subs l hk
      cases l with
      | nil => simp at hk
      | cons s rest =>
          have hk2 : k < rest.length := by
            simpa [Nat.succ_lt_succ_iff] using hk
          have hrest : rest.isEmpty = false := by
            cases rest with
            | nil => simp at hk2
            | cons a b => rfl
          rw [List.replicate_succ, connRun_cons, connStep_resub_cons subs s rest hrest]
          rw [ih subs rest hk2]
          simp

theorem connRun_resub_full (l : List Subscription) : ∀ subs : List Subscription,
    l ≠ [] →
    connRun ⟨subs, ConnPhase.resubscribing l⟩
        (List.replicate l.length ConnEvent.resubscribeNext) =
      (⟨subs, ConnPhase.running⟩, l.map ConnAct.reissue) := by
  induction l with
  | nil => intro subs h; exact absurd rfl h
  | cons s rest ih =>
      intro subs _
      cases rest with
      | nil =>
          rw [show List.replicate ([s] : List Subscription).length
              ConnEvent.resubscribeNext = [ConnEvent.resubscribeNext] from rfl]
          rw [connRun_cons, connStep_resub_last]
          simp [connRun]
      | cons a b =>
          rw [show List.replicate ((s :: a :: b) : List Subscription).length
                ConnEvent.resubscribeNext =
              ConnEvent.resubscribeNext ::
                List.replicate ((a :: b) : List Subscription).length
                  ConnEvent.resubscribeNext from rfl]
          rw [connRun_cons, connStep_resub_cons subs s (a :: b) rfl]
          rw [ih subs (by simp)]
          simp

/-- C5 (modelled from the spec; the reconnect machinery lives in the
third-party `ThreadedWebsocketManager`, not under src/): after a
transport drop and a successful reconnect that re-issues every
subscription, the active subscription list equals — element for element,
in the original registration order — the list active before the drop, the
re-issue actions happen in exactly that order, and a frame delivered
after the reconnect but before resubscription has completed is not
dispatched to any handler (the run emits no dispatch action). -/
theorem C5_reconnect_resubscription (c : StreamConn) (t : String) (k : Nat)
    (hrun : c.phase = ConnPhase.running) :
    (connRun c (ConnEvent.drop :: ConnEvent.reconnect ::
        List.replicate c.subs.length ConnEvent.resubscribeNext)).1 =
      ⟨c.subs, ConnPhase.running⟩ ∧
    (connRun c (ConnEvent.drop :: ConnEvent.reconnect ::
        List.replicate c.subs.length ConnEvent.resubscribeNext)).2 =
      c.subs.map ConnAct.reissue ∧
    (k < c.subs.length →
      (connRun c (ConnEvent.drop :: ConnEvent.reconnect ::
          (List.replicate k ConnEvent.resubscribeNext ++ [ConnEvent.frame t]))).2 =
        (c.subs.take k).map ConnAct.reissue) := by
  cases c with
  | mk subs phase =>
      subst hrun
      cases hs : subs with
      | nil =>
          refine ⟨?_, ?_, ?_⟩
          · simp [connRun, connStep]
          · simp [connRun, connStep]
          · intro hk; simp at hk
      | cons s rest =>
          have hne : s :: rest ≠ ([] : List Subscription) := by simp
          have hdrop : connStep ⟨s :: rest, ConnPhase.running⟩ ConnEvent.drop =
              (⟨s :: rest, ConnPhase.dropped⟩, []) := rfl
          have hrecon : connStep ⟨s :: rest, ConnPhase.dropped⟩ ConnEvent.reconnect =
              (⟨s :: rest, ConnPhase.resubscribing (s :: rest)⟩, []) := by
            simp [connStep]
          refine ⟨?_, ?_, ?_⟩
          · rw [connRun_cons, hdrop, connRun_cons, hrecon,
              connRun_resub_full (s :: rest) (s :: rest) hne]
          · rw [connRun_cons, hdrop, connRun_cons, hrecon,
              connRun_resub_full (s :: rest) (s :: rest) hne]
            simp
          · intro hk
            rw [connRun_cons, hdrop, connRun_cons, hrecon,
              connRun_append (List.replicate k ConnEvent.resubscribeNext)
                [ConnEvent.frame t],
              connRun_resub_partial k (s :: rest) (s :: rest) hk]
            simp [connRun, connStep]

/-- Witness for C5 with two subscriptions, a partial resubscription of
one, and a frame for a subscribed topic arriving early. -/
theorem C5_reconnect_resubscription_witness :
    (connRun ⟨[⟨"btcusdt@ticker", 1⟩, ⟨"ethusdt@ticker", 2⟩], ConnPhase.running⟩
        (ConnEvent.drop :: ConnEvent.reconnect ::
          List.replicate 2 ConnEvent.resubscribeNext)).1 =
      ⟨[⟨"btcusdt@ticker", 1⟩, ⟨"ethusdt@ticker", 2⟩], ConnPhase.running⟩ ∧
    (connRun ⟨[⟨"btcusdt@ticker", 1⟩, ⟨"ethusdt@ticker", 2⟩], ConnPhase.running⟩
        (ConnEvent.drop :: ConnEvent.reconnect ::
          List.replicate 2 ConnEvent.resubscribeNext)).2 =
      [ConnAct.reissue ⟨"btcusdt@ticker", 1⟩, ConnAct.reissue ⟨"ethusdt@ticker", 2⟩] ∧
    (connRun ⟨[⟨"btcusdt@ticker", 1⟩, ⟨"ethusdt@ticker", 2⟩], ConnPhase.running⟩
        (ConnEvent.drop :: ConnEvent.reconnect ::
          (List.replicate 1 ConnEvent.resubscribeNext ++
            [ConnEvent.frame "btcusdt@ticker"]))).2 =
      [ConnAct.reissue ⟨"btcusdt@ticker", 1⟩] := by
  have h := C5_reconnect_resubscription
    ⟨[⟨"btcusdt@ticker", 1⟩, ⟨"ethusdt@ticker", 2⟩], ConnPhase.running⟩
    "btcusdt@ticker" 1 rfl
  exact ⟨h.1, h.2.1, h.2.2 (by norm_num)⟩
